import Mathlib

/-!
Verification of the particle-field background animator
(`src/components/BackgroundAnimation.tsx`).

The component is embedded shallowly:

* numbers are rationals (`ℚ`); the source performs only addition,
  subtraction, multiplication and comparisons on them, all exact on `ℚ`;
* `Math.random()` is an injectable sample stream `rand : ℕ → ℚ`, consumed
  in the order the source calls it (six samples per particle, in the order
  size, x, y, dx, dy, color);
* canvas drawing calls are recorded as a trace of `RenderEvent`s;
* the mutable closure state of the `useEffect` body (canvas, context,
  particle list, pending animation-frame callbacks, resize listener) is an
  explicit `AnimState` record, and each function of the source becomes a
  state transformer or trace producer.
-/

namespace BackgroundAnim

/-- A particle ("dot"), with the fields of the object literal pushed by
`createDots`: position, velocity, radius and color. -/
structure Dot where
  x : ℚ
  y : ℚ
  dx : ℚ
  dy : ℚ
  radius : ℚ
  color : String
  deriving DecidableEq

instance : Inhabited Dot :=
  ⟨{ x := 0, y := 0, dx := 0, dy := 0, radius := 0, color := "" }⟩

/-- One recorded canvas effect.  `clear` is `clearRect` over the whole
surface, `circle` is the arc-fill of one dot, `line` is one connection
stroke (endpoints, stroke style, line width), `schedule` is the
`requestAnimationFrame` call, and `updateStep` marks the completion of the
position/velocity update of a frame. -/
inductive RenderEvent where
  | clear (w h : ℚ)
  | circle (x y radius : ℚ) (style : String)
  | line (x1 y1 x2 y2 : ℚ) (style : String) (width : ℚ)
  | schedule
  | updateStep
  deriving DecidableEq

/-- The fixed five-entry palette of the source. -/
def colors : List String :=
  [ "#6B8E23", "#66CDAA", "#20B2AA", "#4682B4", "#5F9EA0" ]

/-- `const dotRadius = 5`. -/
def dotRadius : ℚ := 5

/-- `window.innerWidth < 600`. -/
def isSmallScreen (w : ℚ) : Bool := decide (w < 600)

/-- `const numDots = isSmallScreen ? 25 : 50`. -/
def numDots (small : Bool) : ℕ := if small then 25 else 50

/-- `const connectionThreshold = isSmallScreen ? 75 : 100`. -/
def connectionThreshold (small : Bool) : ℚ := if small then 75 else 100

/-- The per-axis velocity multiplier `(isSmallScreen ? 2 : 4)` applied to
`Math.random() - 0.5` in `createDots`. -/
def speedFactor (small : Bool) : ℚ := if small then 2 else 4

/-- `createDots`: pushes `numDots` particles.  Particle `i` consumes the six
samples `rand (6*i) .. rand (6*i+5)` in source call order: the size jitter,
then the object-literal fields x, y, dx, dy and the palette index. -/
def createDots (small : Bool) (w h : ℚ) (rand : ℕ → ℚ) : List Dot :=
  (List.range (numDots small)).map (fun i =>
    { x := rand (6 * i + 1) * w
      y := rand (6 * i + 2) * h
      dx := (rand (6 * i + 3) - 0.5) * speedFactor small
      dy := (rand (6 * i + 4) - 0.5) * speedFactor small
      radius := dotRadius * (1 + (rand (6 * i) * 0.6 - 0.3))
      color := colors.getD (⌊rand (6 * i + 5) * (colors.length : ℚ)⌋).toNat "" })

/-- The body of the `for (const dot of dots)` loop of `updateDots`: the
position advances by the velocity first, and each axis check then reads the
already-advanced position; a check that fires negates that axis's velocity
and leaves the position unchanged (no clamping). -/
def updateDot (w h : ℚ) (d : Dot) : Dot :=
  { d with
    x := d.x + d.dx
    y := d.y + d.dy
    dx := if d.x + d.dx + d.radius > w ∨ d.x + d.dx - d.radius < 0 then -d.dx else d.dx
    dy := if d.y + d.dy + d.radius > h ∨ d.y + d.dy - d.radius < 0 then -d.dy else d.dy }

/-- `updateDots` applies the loop body to every dot. -/
def updateDots (w h : ℚ) (dots : List Dot) : List Dot :=
  dots.map (updateDot w h)

/-- The index pairs visited by the nested loops of `drawConnections`:
`i` over `0 .. n-1`, `j` over `i+1 .. n-1`. -/
def pairIndices (n : ℕ) : List (ℕ × ℕ) :=
  (List.range n).flatMap (fun i =>
    (List.range' (i + 1) (n - (i + 1))).map (fun j => (i, j)))

/-- Squared center distance of two dots.  The source computes
`Math.hypot(dot1.x - dot2.x, dot1.y - dot2.y)` and compares it with the
(nonnegative) threshold; the comparison is embedded squared, which is
equivalent and keeps the development inside `ℚ`. -/
def dist2 (d1 d2 : Dot) : ℚ :=
  (d1.x - d2.x) ^ 2 + (d1.y - d2.y) ^ 2

/-- The stroke emitted for the index pair `p`: endpoints at the two dot
centers, stroke style built from the first (lower-index) dot's color with
the `BF` alpha suffix, line width 1. -/
def lineOf (dots : List Dot) (p : ℕ × ℕ) : RenderEvent :=
  RenderEvent.line (dots.getD p.1 default).x (dots.getD p.1 default).y
    (dots.getD p.2 default).x (dots.getD p.2 default).y
    ((dots.getD p.1 default).color ++ "BF") 1

/-- The index pairs whose squared distance is under the squared threshold. -/
def closePairs (t : ℚ) (dots : List Dot) : List (ℕ × ℕ) :=
  (pairIndices dots.length).filter
    (fun p => decide (dist2 (dots.getD p.1 default) (dots.getD p.2 default) < t ^ 2))

/-- `drawConnections`: bails out if the context is gone, otherwise emits one
stroke per visited pair whose distance is strictly under the threshold. -/
def drawConnections (ctxOk : Bool) (t : ℚ) (dots : List Dot) : List RenderEvent :=
  if ctxOk then
    (pairIndices dots.length).filterMap (fun p =>
      if dist2 (dots.getD p.1 default) (dots.getD p.2 default) < t ^ 2 then
        some (lineOf dots p)
      else none)
  else []

/-- `drawDots`: bails out if context or canvas is gone, otherwise clears the
surface, fills one circle per dot (color with the `BF` alpha suffix), and
ends by calling `drawConnections`. -/
def drawDots (ctxOk canvasOk : Bool) (w h t : ℚ) (dots : List Dot) : List RenderEvent :=
  if ctxOk && canvasOk then
    (RenderEvent.clear w h ::
      dots.map (fun d => RenderEvent.circle d.x d.y d.radius (d.color ++ "BF")))
      ++ drawConnections ctxOk t dots
  else []

/-- The effect trace of one `animate` callback: nothing when context or
canvas is gone, otherwise `requestAnimationFrame` first, then the drawing
of `drawDots`, then the `updateDots` pass (marked by `updateStep`). -/
def animateTrace (ctxOk canvasOk : Bool) (w h t : ℚ) (dots : List Dot) : List RenderEvent :=
  if ctxOk && canvasOk then
    RenderEvent.schedule ::
      (drawDots ctxOk canvasOk w h t dots ++ [RenderEvent.updateStep])
  else []

/-- The mutable closure state of the mounted effect: availability of the
captured canvas and 2D context, canvas dimensions, the viewport
classification and connection threshold captured at mount, the particle
list, the number of pending animation-frame callbacks, whether the resize
listener is registered, and the accumulated effect trace. -/
structure AnimState where
  canvasPresent : Bool
  ctxPresent : Bool
  canvasW : ℚ
  canvasH : ℚ
  smallScreen : Bool
  threshold : ℚ
  dots : List Dot
  pending : ℕ
  resizeListener : Bool
  events : List RenderEvent

/-- The state after an early return of the effect body: nothing was
created, drawn, scheduled or registered. -/
def initState (canvasAvail ctxAvail : Bool) : AnimState :=
  { canvasPresent := canvasAvail
    ctxPresent := ctxAvail
    canvasW := 0
    canvasH := 0
    smallScreen := false
    threshold := 0
    dots := []
    pending := 0
    resizeListener := false
    events := [] }

/-- One run of the `animate` callback body on the state: if context and
canvas are captured, it first schedules the next frame, then appends the
frame's effect trace, then runs `updateDots`; otherwise it returns at once. -/
def animateStep (s : AnimState) : AnimState :=
  if s.ctxPresent && s.canvasPresent then
    { s with
      pending := s.pending + 1
      events := s.events ++
        animateTrace s.ctxPresent s.canvasPresent s.canvasW s.canvasH s.threshold s.dots
      dots := updateDots s.canvasW s.canvasH s.dots }
  else s

/-- Delivery of one pending animation-frame callback by the host: if none
is pending nothing happens; otherwise one pending callback is consumed and
the `animate` body runs. -/
def fireFrame (s : AnimState) : AnimState :=
  if s.pending = 0 then s else animateStep { s with pending := s.pending - 1 }

/-- The `useEffect` body: return early (a silent no-op) when the canvas or
its 2D context is unobtainable; otherwise size the canvas to the viewport,
capture the viewport classification and its derived constants, create the
dots, run `animate` once (which schedules the self-sustaining loop), and
register the resize listener. -/
def mount (canvasAvail ctxAvail : Bool) (innerW innerH : ℚ) (rand : ℕ → ℚ) : AnimState :=
  match canvasAvail, ctxAvail with
  | false, _ => initState canvasAvail ctxAvail
  | true, false => initState canvasAvail ctxAvail
  | true, true =>
    let s1 := animateStep
      { canvasPresent := true
        ctxPresent := true
        canvasW := innerW
        canvasH := innerH
        smallScreen := isSmallScreen innerW
        threshold := connectionThreshold (isSmallScreen innerW)
        dots := createDots (isSmallScreen innerW) innerW innerH rand
        pending := 0
        resizeListener := false
        events := [] }
    { s1 with resizeListener := true }

/-- `resizeCanvas`: returns early when the canvas is gone, otherwise sets
the canvas dimensions to the current viewport.  Nothing else is touched. -/
def resizeCanvas (s : AnimState) (newW newH : ℚ) : AnimState :=
  if s.canvasPresent then { s with canvasW := newW, canvasH := newH } else s

/-- The `useEffect` cleanup that runs on unmount: it removes the resize
listener.  It is the whole cleanup of the source; no pending frame callback
is cancelled and no liveness flag is cleared. -/
def cleanup (s : AnimState) : AnimState :=
  { s with resizeListener := false }

/-- The scenario particle of the reflection test: at `(radius - 0.5, y)`
with horizontal velocity `-1`. -/
def edgeDot (y dy r : ℚ) (c : String) : Dot :=
  { x := r - 0.5, y := y, dx := -1, dy := dy, radius := r, color := c }

/-- A sample dot used in concrete instantiations. -/
def demoDot : Dot :=
  { x := 10, y := 20, dx := 1, dy := 1, radius := 5, color := "#4682B4" }

/-- Sample dots at distance 5 of each other, used in concrete
instantiations. -/
def demoDotA : Dot :=
  { x := 0, y := 0, dx := 1, dy := 1, radius := 5, color := "#6B8E23" }

/-- Second sample dot; see `demoDotA`. -/
def demoDotB : Dot :=
  { x := 3, y := 4, dx := -1, dy := -1, radius := 5, color := "#66CDAA" }

end BackgroundAnim

namespace BackgroundAnim

theorem updateDot_x (w h : ℚ) (d : Dot) : (updateDot w h d).x = d.x + d.dx := rfl

theorem updateDot_y (w h : ℚ) (d : Dot) : (updateDot w h d).y = d.y + d.dy := rfl

theorem updateDot_radius (w h : ℚ) (d : Dot) : (updateDot w h d).radius = d.radius := rfl

theorem updateDot_dx (w h : ℚ) (d : Dot) :
    (updateDot w h d).dx =
      if d.x + d.dx + d.radius > w ∨ d.x + d.dx - d.radius < 0 then -d.dx else d.dx := rfl

theorem createDots_getD (small : Bool) (w h : ℚ) (rand : ℕ → ℚ) (i : ℕ)
    (hi : i < numDots small) :
    (createDots small w h rand).getD i default =
      { x := rand (6 * i + 1) * w
        y := rand (6 * i + 2) * h
        dx := (rand (6 * i + 3) - 0.5) * speedFactor small
        dy := (rand (6 * i + 4) - 0.5) * speedFactor small
        radius := dotRadius * (1 + (rand (6 * i) * 0.6 - 0.3))
        color := colors.getD (⌊rand (6 * i + 5) * (colors.length : ℚ)⌋).toNat "" } := by
  simp [createDots, List.getD_eq_getElem?_getD, List.getElem?_map, List.getElem?_range, hi]

theorem createDots_length (small : Bool) (w h : ℚ) (rand : ℕ → ℚ) :
    (createDots small w h rand).length = numDots small := by
  simp [createDots]

theorem updateDots_getD (w h : ℚ) (l : List Dot) (i : ℕ) (hi : i < l.length) :
    (updateDots w h l).getD i default = updateDot w h (l.getD i default) := by
  simp [updateDots, List.getD_eq_getElem?_getD, List.getElem?_map, List.getElem?_eq_getElem hi]

theorem isSmallScreen_400 : isSmallScreen 400 = true := by
  simp only [isSmallScreen, decide_eq_true_eq]
  norm_num

/-- C1 (amended): boundary containment after the boundary-check step holds
for particles that start the frame at least one speed-magnitude inside the
band `[radius, width - radius]` (resp. height): the check never moves the
position, so such a particle's advanced position stays in the band.  In
general the check only flips the velocity sign without clamping, so the
containment of the original claim can fail (see the counterexample). -/
theorem containment_with_margin (w h : ℚ) (d : Dot)
    (hx1 : d.radius + |d.dx| ≤ d.x) (hx2 : d.x ≤ w - d.radius - |d.dx|)
    (hy1 : d.radius + |d.dy| ≤ d.y) (hy2 : d.y ≤ h - d.radius - |d.dy|) :
    d.radius ≤ (updateDot w h d).x ∧ (updateDot w h d).x ≤ w - d.radius ∧
      d.radius ≤ (updateDot w h d).y ∧ (updateDot w h d).y ≤ h - d.radius := by
  simp only [updateDot_x, updateDot_y]
  have h1 := neg_abs_le d.dx
  have h2 := le_abs_self d.dx
  have h3 := neg_abs_le d.dy
  have h4 := le_abs_self d.dy
  refine ⟨by linarith, by linarith, by linarith, by linarith⟩

/-- Witness for `containment_with_margin` at the concrete dot `demoDot`
inside a 100 by 100 canvas. -/
theorem containment_with_margin_witness :
    (demoDot.radius + |demoDot.dx| ≤ demoDot.x ∧
      demoDot.x ≤ 100 - demoDot.radius - |demoDot.dx| ∧
      demoDot.radius + |demoDot.dy| ≤ demoDot.y ∧
      demoDot.y ≤ 100 - demoDot.radius - |demoDot.dy|) ∧
    (demoDot.radius ≤ (updateDot 100 100 demoDot).x ∧
      (updateDot 100 100 demoDot).x ≤ 100 - demoDot.radius ∧
      demoDot.radius ≤ (updateDot 100 100 demoDot).y ∧
      (updateDot 100 100 demoDot).y ≤ 100 - demoDot.radius) := by
  have hA : demoDot.radius + |demoDot.dx| ≤ demoDot.x := by norm_num [demoDot]
  have hB : demoDot.x ≤ 100 - demoDot.radius - |demoDot.dx| := by norm_num [demoDot]
  have hC : demoDot.radius + |demoDot.dy| ≤ demoDot.y := by norm_num [demoDot]
  have hD : demoDot.y ≤ 100 - demoDot.radius - |demoDot.dy| := by norm_num [demoDot]
  exact ⟨⟨hA, hB, hC, hD⟩, containment_with_margin 100 100 demoDot hA hB hC hD⟩

/-- C1 counterexample: mounting at viewport 400 by 300 with the constant-0
sample stream produces a particle set whose dot 0, immediately after the
boundary-check step of the first frame (run synchronously by `mount`), sits
at `x = -1` with radius `3.5`: `radius ≤ x` fails. -/
theorem boundary_containment_cex :
    ¬ (((mount true true 400 300 (fun _ => 0)).dots.getD 0 default).radius
        ≤ ((mount true true 400 300 (fun _ => 0)).dots.getD 0 default).x) := by
  have hdots : (mount true true 400 300 (fun _ => 0)).dots
      = updateDots 400 300 (createDots (isSmallScreen 400) 400 300 (fun _ => 0)) := rfl
  have hn : 0 < numDots (isSmallScreen 400) := by
    rw [isSmallScreen_400]; norm_num [numDots]
  have hlen : 0 < (createDots (isSmallScreen 400) 400 300 (fun _ => 0)).length := by
    rw [createDots_length]; exact hn
  rw [hdots, updateDots_getD _ _ _ _ hlen, createDots_getD _ _ _ _ _ hn,
    updateDot_radius, updateDot_x]
  rw [isSmallScreen_400]
  norm_num [dotRadius, speedFactor]

/-- C3 (amended): a particle at `(radius - 0.5, y)` with `dx = -1` has, after
one update step, `dx = +1` as the claim states; but after the subsequent
step its x-coordinate is `radius - 0.5` again — strictly below `radius`,
not `≥ radius` — and its `dx` has flipped back to `-1`: the particle
oscillates just outside the containment band instead of being reflected
back inside it. -/
theorem edge_reflection (w h y dy r : ℚ) (c : String)
    (hr : 0 < r) (hrw : r ≤ w - r) :
    (updateDot w h (edgeDot y dy r c)).dx = 1 ∧
    (updateDot w h (updateDot w h (edgeDot y dy r c))).x = r - 0.5 ∧
    (updateDot w h (updateDot w h (edgeDot y dy r c))).x < r ∧
    (updateDot w h (updateDot w h (edgeDot y dy r c))).dx = -1 := by
  have hx0 : (edgeDot y dy r c).x = r - 0.5 := rfl
  have hdx0 : (edgeDot y dy r c).dx = -1 := rfl
  have hr0 : (edgeDot y dy r c).radius = r := rfl
  have hdx1 : (updateDot w h (edgeDot y dy r c)).dx = 1 := by
    rw [updateDot_dx, hx0, hdx0, hr0, if_pos (Or.inr (by linarith))]
    norm_num
  have hx1 : (updateDot w h (edgeDot y dy r c)).x = r - 0.5 + -1 := by
    rw [updateDot_x, hx0, hdx0]
  have hr1 : (updateDot w h (edgeDot y dy r c)).radius = r := by
    rw [updateDot_radius, hr0]
  have hx2 : (updateDot w h (updateDot w h (edgeDot y dy r c))).x = r - 0.5 := by
    rw [updateDot_x, hx1, hdx1]; ring
  have hdx2 : (updateDot w h (updateDot w h (edgeDot y dy r c))).dx = -1 := by
    rw [updateDot_dx, hx1, hdx1, hr1, if_pos (Or.inr (by linarith))]
  exact ⟨hdx1, hx2, by rw [hx2]; norm_num, hdx2⟩

/-- Witness for `edge_reflection` with radius 5 inside a 100 by 100 canvas. -/
theorem edge_reflection_witness :
    ((0 : ℚ) < 5 ∧ (5 : ℚ) ≤ 100 - 5) ∧
    ((updateDot 100 100 (edgeDot 50 0 5 "")).dx = 1 ∧
      (updateDot 100 100 (updateDot 100 100 (edgeDot 50 0 5 ""))).x = 5 - 0.5 ∧
      (updateDot 100 100 (updateDot 100 100 (edgeDot 50 0 5 ""))).x < 5 ∧
      (updateDot 100 100 (updateDot 100 100 (edgeDot 50 0 5 ""))).dx = -1) :=
  ⟨⟨by norm_num, by norm_num⟩, edge_reflection 100 100 50 0 5 "" (by norm_num) (by norm_num)⟩

/-- C3 counterexample: with radius 5 in a 100 by 100 canvas (so
`0 < radius ≤ width - radius`), the particle of the scenario does NOT
satisfy `x ≥ radius` after the subsequent update step: its x-coordinate is
`4.5 < 5`. -/
theorem edge_reflection_cex :
    ¬ ((5 : ℚ) ≤ (updateDot 100 100 (updateDot 100 100 (edgeDot 50 0 5 ""))).x) := by
  have hx0 : (edgeDot 50 0 5 "").x = 5 - 0.5 := rfl
  have hdx0 : (edgeDot 50 0 5 "").dx = -1 := rfl
  have hr0 : (edgeDot 50 0 5 "").radius = (5 : ℚ) := rfl
  have hdx1 : (updateDot 100 100 (edgeDot 50 0 5 "")).dx = 1 := by
    rw [updateDot_dx, hx0, hdx0, hr0, if_pos (Or.inr (by norm_num))]
    norm_num
  have hx1 : (updateDot 100 100 (edgeDot 50 0 5 "")).x = 5 - 0.5 + -1 := by
    rw [updateDot_x, hx0, hdx0]
  have hx2 : (updateDot 100 100 (updateDot 100 100 (edgeDot 50 0 5 ""))).x
      = 5 - 0.5 + -1 + 1 := by
    rw [updateDot_x, hx1, hdx1]
  rw [hx2]
  norm_num

/-- C8 (amended): a velocity component of a created particle is zero exactly
when its sample is `0.5`: the source computes `(Math.random() - 0.5)` times
a non-zero factor, which excludes nothing — `Math.random()` can return
`0.5`, and then the component is zero.  The claim's "non-zero" does not
hold for all outcomes of the random source. -/
theorem velocity_zero_iff (small : Bool) (w h : ℚ) (rand : ℕ → ℚ) (i : ℕ)
    (hi : i < numDots small) :
    (((createDots small w h rand).getD i default).dx = 0 ↔ rand (6 * i + 3) = 0.5) ∧
    (((createDots small w h rand).getD i default).dy = 0 ↔ rand (6 * i + 4) = 0.5) := by
  rw [createDots_getD _ _ _ _ _ hi]
  have hsf : speedFactor small ≠ 0 := by
    cases small <;> norm_num [speedFactor]
  constructor
  · show (rand (6 * i + 3) - 0.5) * speedFactor small = 0 ↔ _
    rw [mul_eq_zero, sub_eq_zero]
    simp [hsf]
  · show (rand (6 * i + 4) - 0.5) * speedFactor small = 0 ↔ _
    rw [mul_eq_zero, sub_eq_zero]
    simp [hsf]

/-- Witness for `velocity_zero_iff`: dot 0 of a small-screen creation. -/
theorem velocity_zero_iff_witness :
    (0 < numDots true) ∧
    ((((createDots true 400 300 (fun _ => 0.5)).getD 0 default).dx = 0 ↔
        (fun _ : ℕ => (0.5 : ℚ)) (6 * 0 + 3) = 0.5) ∧
      (((createDots true 400 300 (fun _ => 0.5)).getD 0 default).dy = 0 ↔
        (fun _ : ℕ => (0.5 : ℚ)) (6 * 0 + 4) = 0.5)) :=
  ⟨by norm_num [numDots],
    velocity_zero_iff true 400 300 (fun _ => 0.5) 0 (by norm_num [numDots])⟩

/-- C8 counterexample: the outcome of the random source that returns `0.5`
everywhere is admissible (`0.5 ∈ [0, 1)`), and it creates dot 0 with
`dx = 0`, contradicting "both velocity components are non-zero for all
outcomes of the random source". -/
theorem velocity_zero_cex :
    ((createDots (isSmallScreen 400) 400 300 (fun _ => 0.5)).getD 0 default).dx = 0 := by
  have hn : 0 < numDots (isSmallScreen 400) := by
    rw [isSmallScreen_400]; norm_num [numDots]
  rw [createDots_getD _ _ _ _ _ hn]
  show ((0.5 : ℚ) - 0.5) * speedFactor (isSmallScreen 400) = 0
  norm_num

end BackgroundAnim

namespace BackgroundAnim

theorem speedFactor_true : speedFactor true = 2 := rfl

theorem speedFactor_false : speedFactor false = 4 := rfl

theorem numDots_true : numDots true = 25 := rfl

theorem numDots_false : numDots false = 50 := rfl

theorem connectionThreshold_true : connectionThreshold true = 75 := rfl

theorem connectionThreshold_false : connectionThreshold false = 100 := rfl

/-- C4: mount derives its parameters solely from whether `width < 600`:
small viewports get 25 particles, threshold 75 and per-axis velocities in
`[-1, 1]`; all other viewports get 50 particles, threshold 100 and per-axis
velocities in `[-2, 2]`, provided every random sample lies in `[0, 1)`. -/
theorem mount_parameters (w h : ℚ) (rand : ℕ → ℚ)
    (hr : ∀ n : ℕ, 0 ≤ rand n ∧ rand n < 1) :
    (w < 600 →
      numDots (isSmallScreen w) = 25 ∧
      connectionThreshold (isSmallScreen w) = 75 ∧
      (createDots (isSmallScreen w) w h rand).length = 25 ∧
      ∀ d ∈ createDots (isSmallScreen w) w h rand,
        -1 ≤ d.dx ∧ d.dx ≤ 1 ∧ -1 ≤ d.dy ∧ d.dy ≤ 1) ∧
    (600 ≤ w →
      numDots (isSmallScreen w) = 50 ∧
      connectionThreshold (isSmallScreen w) = 100 ∧
      (createDots (isSmallScreen w) w h rand).length = 50 ∧
      ∀ d ∈ createDots (isSmallScreen w) w h rand,
        -2 ≤ d.dx ∧ d.dx ≤ 2 ∧ -2 ≤ d.dy ∧ d.dy ≤ 2) := by
  constructor
  · intro hw
    have hs : isSmallScreen w = true := by
      simp only [isSmallScreen, decide_eq_true_eq]; exact hw
    rw [hs, numDots_true, connectionThreshold_true, createDots_length, numDots_true]
    refine ⟨rfl, rfl, rfl, ?_⟩
    intro d hd
    simp only [createDots, List.mem_map, List.mem_range] at hd
    obtain ⟨i, hi, rfl⟩ := hd
    obtain ⟨h3a, h3b⟩ := hr (6 * i + 3)
    obtain ⟨h4a, h4b⟩ := hr (6 * i + 4)
    refine ⟨?_, ?_, ?_, ?_⟩
    · show -1 ≤ (rand (6 * i + 3) - 0.5) * speedFactor true
      rw [speedFactor_true]; nlinarith
    · show (rand (6 * i + 3) - 0.5) * speedFactor true ≤ 1
      rw [speedFactor_true]; nlinarith
    · show -1 ≤ (rand (6 * i + 4) - 0.5) * speedFactor true
      rw [speedFactor_true]; nlinarith
    · show (rand (6 * i + 4) - 0.5) * speedFactor true ≤ 1
      rw [speedFactor_true]; nlinarith
  · intro hw
    have hs : isSmallScreen w = false := by
      simp only [isSmallScreen, decide_eq_false_iff_not]
      exact not_lt.mpr hw
    rw [hs, numDots_false, connectionThreshold_false, createDots_length, numDots_false]
    refine ⟨rfl, rfl, rfl, ?_⟩
    intro d hd
    simp only [createDots, List.mem_map, List.mem_range] at hd
    obtain ⟨i, hi, rfl⟩ := hd
    obtain ⟨h3a, h3b⟩ := hr (6 * i + 3)
    obtain ⟨h4a, h4b⟩ := hr (6 * i + 4)
    refine ⟨?_, ?_, ?_, ?_⟩
    · show -2 ≤ (rand (6 * i + 3) - 0.5) * speedFactor false
      rw [speedFactor_false]; nlinarith
    · show (rand (6 * i + 3) - 0.5) * speedFactor false ≤ 2
      rw [speedFactor_false]; nlinarith
    · show -2 ≤ (rand (6 * i + 4) - 0.5) * speedFactor false
      rw [speedFactor_false]; nlinarith
    · show (rand (6 * i + 4) - 0.5) * speedFactor false ≤ 2
      rw [speedFactor_false]; nlinarith

/-- Witness for `mount_parameters` at viewport width 400 with the constant-0
sample stream (every sample is in `[0, 1)`). -/
theorem mount_parameters_witness :
    (∀ n : ℕ, 0 ≤ (fun _ : ℕ => (0 : ℚ)) n ∧ (fun _ : ℕ => (0 : ℚ)) n < 1) ∧
    ((400 : ℚ) < 600) ∧
    (numDots (isSmallScreen 400) = 25 ∧
      connectionThreshold (isSmallScreen 400) = 75 ∧
      (createDots (isSmallScreen 400) 400 300 (fun _ : ℕ => (0 : ℚ))).length = 25 ∧
      ∀ d ∈ createDots (isSmallScreen 400) 400 300 (fun _ : ℕ => (0 : ℚ)),
        -1 ≤ d.dx ∧ d.dx ≤ 1 ∧ -1 ≤ d.dy ∧ d.dy ≤ 1) :=
  ⟨fun _ => ⟨le_refl 0, by norm_num⟩, by norm_num,
    (mount_parameters 400 300 (fun _ => 0) (fun _ => ⟨le_refl 0, by norm_num⟩)).1
      (by norm_num)⟩

/-- C7: if the canvas or its 2D context is unobtainable at mount, the effect
body returns normally having done nothing: no particle is created, no frame
is scheduled, no draw call is recorded, and no resize listener is
registered.  (`mount` is a total function, so it propagates no error.) -/
theorem mount_noop_on_missing_context (canvasAvail ctxAvail : Bool) (w h : ℚ)
    (rand : ℕ → ℚ) (hfail : canvasAvail = false ∨ ctxAvail = false) :
    (mount canvasAvail ctxAvail w h rand).dots = [] ∧
    (mount canvasAvail ctxAvail w h rand).pending = 0 ∧
    (mount canvasAvail ctxAvail w h rand).events = [] ∧
    (mount canvasAvail ctxAvail w h rand).resizeListener = false := by
  cases canvasAvail <;> cases ctxAvail <;> simp_all [mount, initState]

/-- Witness for `mount_noop_on_missing_context`: an unobtainable canvas. -/
theorem mount_noop_witness :
    (false = false ∨ true = false) ∧
    ((mount false true 800 600 (fun _ : ℕ => (0 : ℚ))).dots = [] ∧
      (mount false true 800 600 (fun _ : ℕ => (0 : ℚ))).pending = 0 ∧
      (mount false true 800 600 (fun _ : ℕ => (0 : ℚ))).events = [] ∧
      (mount false true 800 600 (fun _ : ℕ => (0 : ℚ))).resizeListener = false) :=
  ⟨Or.inl rfl, mount_noop_on_missing_context false true 800 600 (fun _ => 0) (Or.inl rfl)⟩

theorem resizeCanvas_dots (s : AnimState) (nw nh : ℚ) :
    (resizeCanvas s nw nh).dots = s.dots := by
  simp only [resizeCanvas]; split <;> rfl

theorem resizeCanvas_smallScreen (s : AnimState) (nw nh : ℚ) :
    (resizeCanvas s nw nh).smallScreen = s.smallScreen := by
  simp only [resizeCanvas]; split <;> rfl

theorem resizeCanvas_threshold (s : AnimState) (nw nh : ℚ) :
    (resizeCanvas s nw nh).threshold = s.threshold := by
  simp only [resizeCanvas]; split <;> rfl

/-- C9: `resizeCanvas` changes only the render surface's dimensions: the
particle list (hence every particle's position, velocity, radius and color,
and the particle count), the pending frames, the recorded trace, the
viewport classification, the threshold and the listener flag are exactly
what they were before the resize. -/
theorem resize_preserves_particles (s : AnimState) (nw nh : ℚ) :
    (resizeCanvas s nw nh).dots = s.dots ∧
    (resizeCanvas s nw nh).dots.length = s.dots.length ∧
    (∀ i : ℕ,
      ((resizeCanvas s nw nh).dots.getD i default).x = (s.dots.getD i default).x ∧
      ((resizeCanvas s nw nh).dots.getD i default).y = (s.dots.getD i default).y ∧
      ((resizeCanvas s nw nh).dots.getD i default).dx = (s.dots.getD i default).dx ∧
      ((resizeCanvas s nw nh).dots.getD i default).dy = (s.dots.getD i default).dy ∧
      ((resizeCanvas s nw nh).dots.getD i default).radius = (s.dots.getD i default).radius ∧
      ((resizeCanvas s nw nh).dots.getD i default).color = (s.dots.getD i default).color) ∧
    (resizeCanvas s nw nh).pending = s.pending ∧
    (resizeCanvas s nw nh).events = s.events ∧
    (resizeCanvas s nw nh).smallScreen = s.smallScreen ∧
    (resizeCanvas s nw nh).threshold = s.threshold ∧
    (resizeCanvas s nw nh).resizeListener = s.resizeListener ∧
    (resizeCanvas s nw nh).canvasW = (if s.canvasPresent then nw else s.canvasW) ∧
    (resizeCanvas s nw nh).canvasH = (if s.canvasPresent then nh else s.canvasH) := by
  have hd : (resizeCanvas s nw nh).dots = s.dots := resizeCanvas_dots s nw nh
  rw [hd]
  refine ⟨rfl, rfl, fun i => ⟨rfl, rfl, rfl, rfl, rfl, rfl⟩, ?_, ?_, ?_, ?_, ?_, ?_, ?_⟩ <;>
    · simp only [resizeCanvas]
      split <;> simp_all

theorem animateStep_smallScreen (s : AnimState) :
    (animateStep s).smallScreen = s.smallScreen := by
  simp only [animateStep]; split <;> rfl

theorem animateStep_threshold (s : AnimState) :
    (animateStep s).threshold = s.threshold := by
  simp only [animateStep]; split <;> rfl

theorem animateStep_dots_length (s : AnimState) :
    (animateStep s).dots.length = s.dots.length := by
  simp only [animateStep]; split
  · simp [updateDots]
  · rfl

theorem fireFrame_smallScreen (s : AnimState) :
    (fireFrame s).smallScreen = s.smallScreen := by
  simp only [fireFrame]; split
  · rfl
  · rw [animateStep_smallScreen]

theorem fireFrame_threshold (s : AnimState) :
    (fireFrame s).threshold = s.threshold := by
  simp only [fireFrame]; split
  · rfl
  · rw [animateStep_threshold]

theorem fireFrame_dots_length (s : AnimState) :
    (fireFrame s).dots.length = s.dots.length := by
  simp only [fireFrame]; split
  · rfl
  · rw [animateStep_dots_length]

theorem mount_smallScreen (w h : ℚ) (rand : ℕ → ℚ) :
    (mount true true w h rand).smallScreen = isSmallScreen w := rfl

theorem mount_threshold (w h : ℚ) (rand : ℕ → ℚ) :
    (mount true true w h rand).threshold = connectionThreshold (isSmallScreen w) := rfl

theorem mount_dots (w h : ℚ) (rand : ℕ → ℚ) :
    (mount true true w h rand).dots
      = updateDots w h (createDots (isSmallScreen w) w h rand) := rfl

/-- C10: the viewport classification and its derived constants are computed
once at mount from the mount-time width and survive any resize (to any new
bounds, crossing the 600 boundary or not) and any number of subsequent
frames: the classification, the connection threshold, the particle count
and the speed multiplier all keep their mount-time values. -/
theorem viewport_class_fixed_at_mount (w h nw nh : ℚ) (rand : ℕ → ℚ) (k : ℕ) :
    (fireFrame^[k] (resizeCanvas (mount true true w h rand) nw nh)).smallScreen
        = isSmallScreen w ∧
    (fireFrame^[k] (resizeCanvas (mount true true w h rand) nw nh)).threshold
        = connectionThreshold (isSmallScreen w) ∧
    (fireFrame^[k] (resizeCanvas (mount true true w h rand) nw nh)).dots.length
        = numDots (isSmallScreen w) ∧
    speedFactor (fireFrame^[k] (resizeCanvas (mount true true w h rand) nw nh)).smallScreen
        = speedFactor (isSmallScreen w) := by
  induction k with
  | zero =>
    refine ⟨?_, ?_, ?_, ?_⟩
    · rw [Function.iterate_zero_apply, resizeCanvas_smallScreen, mount_smallScreen]
    · rw [Function.iterate_zero_apply, resizeCanvas_threshold, mount_threshold]
    · rw [Function.iterate_zero_apply, resizeCanvas_dots, mount_dots]
      simp [updateDots, createDots_length]
    · rw [Function.iterate_zero_apply, resizeCanvas_smallScreen, mount_smallScreen]
  | succ k ih =>
    obtain ⟨ih1, ih2, ih3, ih4⟩ := ih
    refine ⟨?_, ?_, ?_, ?_⟩
    · rw [Function.iterate_succ_apply', fireFrame_smallScreen]; exact ih1
    · rw [Function.iterate_succ_apply', fireFrame_threshold]; exact ih2
    · rw [Function.iterate_succ_apply', fireFrame_dots_length]; exact ih3
    · rw [Function.iterate_succ_apply', fireFrame_smallScreen]; exact ih4

end BackgroundAnim

namespace BackgroundAnim

theorem mem_pairIndices (n i j : ℕ) :
    (i, j) ∈ pairIndices n ↔ i < j ∧ j < n := by
  simp only [pairIndices, List.mem_flatMap, List.mem_map, List.mem_range, List.mem_range'_1,
    Prod.mk.injEq]
  constructor
  · rintro ⟨a, ha, b, ⟨hb1, hb2⟩, rfl, rfl⟩
    omega
  · rintro ⟨hij, hj⟩
    exact ⟨i, by omega, j, ⟨by omega, by omega⟩, rfl, rfl⟩

theorem nodup_pairIndices (n : ℕ) : (pairIndices n).Nodup := by
  rw [pairIndices, List.nodup_flatMap]
  constructor
  · intro i _
    refine (List.nodup_range' (i + 1) (n - (i + 1))).map ?_
    intro a b hab
    simpa using hab
  · refine List.Pairwise.imp ?_ (List.pairwise_lt_range n)
    intro a b hab x hxa hxb
    simp only [List.mem_map] at hxa hxb
    obtain ⟨j1, hj1, hx1⟩ := hxa
    obtain ⟨j2, hj2, hx2⟩ := hxb
    have hx : (a, j1) = (b, j2) := hx1.trans hx2.symm
    injection hx with h1 h2
    omega

theorem filterMap_if_eq_filter_map {α β : Type} (p : α → Prop) [DecidablePred p]
    (f : α → β) (l : List α) :
    (l.filterMap (fun a => if p a then some (f a) else none))
      = (l.filter (fun a => decide (p a))).map f := by
  induction l with
  | nil => rfl
  | cons a l ih =>
    by_cases h : p a
    · simp [List.filterMap_cons, List.filter_cons, h, ih]
    · simp [List.filterMap_cons, List.filter_cons, h, ih]

theorem count_eq_one_of_mem_nodup {α : Type} [BEq α] [LawfulBEq α] {l : List α} {a : α}
    (hn : l.Nodup) (ha : a ∈ l) : l.count a = 1 := by
  induction l with
  | nil => cases ha
  | cons b l ih =>
    rw [List.count_cons]
    rcases List.mem_cons.mp ha with rfl | hmem
    · rw [List.count_eq_zero.mpr (List.nodup_cons.mp hn).1, if_pos (by simp)]
    · have hb : ¬ ((b == a) = true) := by
        simp only [beq_iff_eq]
        intro hba
        exact (List.nodup_cons.mp hn).1 (hba ▸ hmem)
      rw [if_neg hb, ih (List.nodup_cons.mp hn).2 hmem]

theorem drawConnections_eq_map (t : ℚ) (dots : List Dot) :
    drawConnections true t dots = (closePairs t dots).map (lineOf dots) := by
  rw [drawConnections, if_pos rfl, closePairs]
  exact filterMap_if_eq_filter_map _ _ _

/-- C5: in a frame with a live context, for every index pair `(i, j)` with
`i < j < n`, `drawConnections` emits the stroke for that pair exactly once
when the center distance is strictly under the connection threshold and not
at all otherwise (the comparison is stated squared; the threshold is
nonnegative), and the emitted event list is precisely one `lineOf` stroke
per qualifying pair — endpoints at the two centers, stroke style the
lower-index dot's color with the `BF` (~75 percent) alpha suffix, width 1. -/
theorem connection_lines_iff_close (t : ℚ) (dots : List Dot) (i j : ℕ)
    (hij : i < j) (hj : j < dots.length) :
    (closePairs t dots).count (i, j)
        = (if dist2 (dots.getD i default) (dots.getD j default) < t ^ 2 then 1 else 0) ∧
    drawConnections true t dots = (closePairs t dots).map (lineOf dots) := by
  refine ⟨?_, drawConnections_eq_map t dots⟩
  by_cases hc : dist2 (dots.getD i default) (dots.getD j default) < t ^ 2
  · rw [if_pos hc]
    refine count_eq_one_of_mem_nodup ((nodup_pairIndices dots.length).filter _) ?_
    rw [closePairs, List.mem_filter]
    refine ⟨(mem_pairIndices dots.length i j).mpr ⟨hij, hj⟩, ?_⟩
    simpa using hc
  · rw [if_neg hc, List.count_eq_zero]
    intro hmem
    rw [closePairs, List.mem_filter] at hmem
    exact hc (by simpa using hmem.2)

/-- Witness for `connection_lines_iff_close`: two dots at distance 5 under
threshold 100. -/
theorem connection_lines_witness :
    ((0 : ℕ) < 1 ∧ 1 < ([demoDotA, demoDotB] : List Dot).length) ∧
    ((closePairs 100 [demoDotA, demoDotB]).count (0, 1)
        = (if dist2 (([demoDotA, demoDotB] : List Dot).getD 0 default)
              (([demoDotA, demoDotB] : List Dot).getD 1 default) < 100 ^ 2
           then 1 else 0) ∧
      drawConnections true 100 [demoDotA, demoDotB]
        = (closePairs 100 [demoDotA, demoDotB]).map (lineOf [demoDotA, demoDotB])) :=
  ⟨⟨by norm_num, by simp⟩,
    connection_lines_iff_close 100 [demoDotA, demoDotB] 0 1 (by norm_num) (by simp)⟩

theorem mem_drawConnections (ctxOk : Bool) (t : ℚ) (dots : List Dot) (e : RenderEvent)
    (he : e ∈ drawConnections ctxOk t dots) : ∃ p, e = lineOf dots p := by
  rw [drawConnections] at he
  split at he
  · rw [List.mem_filterMap] at he
    obtain ⟨p, hp, hpe⟩ := he
    split at hpe
    · exact ⟨p, (Option.some.inj hpe).symm⟩
    · exact Option.noConfusion hpe
  · exact absurd he (List.not_mem_nil e)

/-- C6 (amended): in every frame callback with a live context and canvas,
the request for the next frame is issued at the START of the callback —
`requestAnimationFrame` is the first effect, and none of the following
effects of the callback (the clear, the circle fills, the connection
strokes, the update pass) is a scheduling request.  The original claim
placed the request at the end of the callback. -/
theorem schedule_precedes_draws (w h t : ℚ) (dots : List Dot) :
    (animateTrace true true w h t dots).head? = some RenderEvent.schedule ∧
    ∀ e ∈ (animateTrace true true w h t dots).tail, e ≠ RenderEvent.schedule := by
  refine ⟨rfl, ?_⟩
  intro e he
  have htail : (animateTrace true true w h t dots).tail
      = drawDots true true w h t dots ++ [RenderEvent.updateStep] := rfl
  rw [htail, List.mem_append] at he
  rcases he with he | he
  · rw [drawDots, if_pos (show ((true && true) = true) from rfl), List.mem_append] at he
    rcases he with he | he
    · rw [List.mem_cons] at he
      rcases he with rfl | he
      · exact fun hh => RenderEvent.noConfusion hh
      · rw [List.mem_map] at he
        obtain ⟨d, _, rfl⟩ := he
        exact fun hh => RenderEvent.noConfusion hh
    · obtain ⟨p, rfl⟩ := mem_drawConnections _ _ _ _ he
      rw [lineOf]
      exact fun hh => RenderEvent.noConfusion hh
  · rw [List.mem_singleton] at he
    subst he
    exact fun hh => RenderEvent.noConfusion hh

/-- C6 counterexample: for a concrete frame (canvas 400 by 300, threshold
75, one dot) the schedule request is the head of the callback's effect
trace and is NOT its last effect — the callback requests the next frame
first and draws and updates afterwards, contradicting "issued at the end,
after the clear, the drawing and the update have all completed". -/
theorem schedule_not_last_cex :
    (animateTrace true true 400 300 75 [demoDot]).head? = some RenderEvent.schedule ∧
    (animateTrace true true 400 300 75 [demoDot]).getLast? ≠ some RenderEvent.schedule := by
  refine ⟨rfl, ?_⟩
  have hlast : (animateTrace true true 400 300 75 [demoDot]).getLast?
      = some RenderEvent.updateStep := by
    rw [animateTrace, if_pos (show ((true && true) = true) from rfl), ← List.cons_append,
      List.getLast?_concat]
  rw [hlast]
  intro hcontra
  exact RenderEvent.noConfusion (Option.some.inj hcontra)

end BackgroundAnim

namespace BackgroundAnim

theorem fireFrame_ctxPresent (s : AnimState) : (fireFrame s).ctxPresent = s.ctxPresent := by
  simp only [fireFrame]; split
  · rfl
  · simp only [animateStep]; split <;> rfl

theorem fireFrame_canvasPresent (s : AnimState) :
    (fireFrame s).canvasPresent = s.canvasPresent := by
  simp only [fireFrame]; split
  · rfl
  · simp only [animateStep]; split <;> rfl

theorem fireFrame_canvasW (s : AnimState) : (fireFrame s).canvasW = s.canvasW := by
  simp only [fireFrame]; split
  · rfl
  · simp only [animateStep]; split <;> rfl

theorem fireFrame_canvasH (s : AnimState) : (fireFrame s).canvasH = s.canvasH := by
  simp only [fireFrame]; split
  · rfl
  · simp only [animateStep]; split <;> rfl

theorem fireFrame_pending_one (s : AnimState) (hp : s.pending = 1)
    (hc : s.ctxPresent = true) (hv : s.canvasPresent = true) :
    (fireFrame s).pending = 1 := by
  simp only [fireFrame, animateStep, hp, hc, hv]
  norm_num

theorem fireFrame_events (s : AnimState) (hp : s.pending = 1)
    (hc : s.ctxPresent = true) (hv : s.canvasPresent = true) :
    (fireFrame s).events
      = s.events ++ animateTrace true true s.canvasW s.canvasH s.threshold s.dots := by
  simp only [fireFrame, animateStep, hp, hc, hv]
  norm_num

/-- C2 (code bug, evaluated at the failing input): after the unmount cleanup
runs — which only removes the resize listener and cancels nothing — one
frame callback is still pending, and even after that one pending callback
drains, the NEXT callback still performs a clear (and the rest of a full
frame): the loop re-schedules itself unconditionally, so draw calls never
stop, contradicting the claim that at most one pending callback drains and
no draw occurs afterwards. -/
theorem draws_continue_after_cleanup :
    (cleanup (mount true true 400 300 (fun _ : ℕ => (0 : ℚ)))).pending = 1 ∧
    RenderEvent.clear 400 300 ∈
      ((fireFrame (fireFrame (cleanup (mount true true 400 300 (fun _ : ℕ => (0 : ℚ)))))).events.drop
        (fireFrame (cleanup (mount true true 400 300 (fun _ : ℕ => (0 : ℚ))))).events.length) := by
  have h0p : (cleanup (mount true true 400 300 (fun _ : ℕ => (0 : ℚ)))).pending = 1 := rfl
  have h0c : (cleanup (mount true true 400 300 (fun _ : ℕ => (0 : ℚ)))).ctxPresent = true := rfl
  have h0v : (cleanup (mount true true 400 300 (fun _ : ℕ => (0 : ℚ)))).canvasPresent = true := rfl
  refine ⟨h0p, ?_⟩
  have h1p := fireFrame_pending_one _ h0p h0c h0v
  have h1c : (fireFrame (cleanup (mount true true 400 300 (fun _ : ℕ => (0 : ℚ))))).ctxPresent
      = true := by
    rw [fireFrame_ctxPresent]; exact h0c
  have h1v : (fireFrame (cleanup (mount true true 400 300 (fun _ : ℕ => (0 : ℚ))))).canvasPresent
      = true := by
    rw [fireFrame_canvasPresent]; exact h0v
  rw [fireFrame_events _ h1p h1c h1v, List.drop_left]
  have hW : (fireFrame (cleanup (mount true true 400 300 (fun _ : ℕ => (0 : ℚ))))).canvasW
      = 400 := by
    rw [fireFrame_canvasW]; rfl
  have hH : (fireFrame (cleanup (mount true true 400 300 (fun _ : ℕ => (0 : ℚ))))).canvasH
      = 300 := by
    rw [fireFrame_canvasH]; rfl
  rw [hW, hH, animateTrace, if_pos (show ((true && true) = true) from rfl)]
  rw [drawDots, if_pos (show ((true && true) = true) from rfl)]
  exact List.mem_cons_of_mem _
    (List.mem_append_left _ (List.mem_append_left _ (List.mem_cons_self _ _)))

end BackgroundAnim

namespace BackgroundAnim

/-- Witness for `schedule_precedes_draws`: in the concrete frame of one dot
on a 400 by 300 canvas, the head of the trace is the schedule request, and
the clear — a member of the trace's tail — is not a schedule request. -/
theorem schedule_precedes_draws_witness :
    (animateTrace true true 400 300 75 [demoDot]).head? = some RenderEvent.schedule ∧
    RenderEvent.clear 400 300 ≠ RenderEvent.schedule := by
  refine ⟨(schedule_precedes_draws 400 300 75 [demoDot]).1, ?_⟩
  refine (schedule_precedes_draws 400 300 75 [demoDot]).2 (RenderEvent.clear 400 300) ?_
  have htail : (animateTrace true true 400 300 75 [demoDot]).tail
      = drawDots true true 400 300 75 [demoDot] ++ [RenderEvent.updateStep] := rfl
  rw [htail, drawDots, if_pos (show ((true && true) = true) from rfl)]
  exact List.mem_append_left _ (List.mem_append_left _ (List.mem_cons_self _ _))

end BackgroundAnim
